import Mathlib

/-!
# A formal model of the WPLT plotting library

This file is a shallow embedding, in Lean 4, of the core of the WPLT
plotting package: the time-parameterized expression evaluator of
`time_series.py`, the bounds tracker, tick-step planner and tick generators
of `figure.py` (`CartesianPlane`), and the figure/global-figure state
machine of `figure.py` / `global_figure.py`.

Modelling conventions:

* Python floats are modelled exactly, as rationals extended with the three
  IEEE non-finite values (`inf`, `-inf`, `nan`): type `WPLT.F`.  Binary
  floating-point rounding is not modelled; every claim checked here is
  about values and control flow that are exact in both semantics.
* Python scalar arithmetic and numpy array arithmetic differ in one place
  the source exercises: `x / y` on two Python scalars raises
  `ZeroDivisionError` when `y == 0`, while numpy elementwise division
  yields `inf`/`-inf`/`nan` (with a warning, never an exception).  Both
  are modelled (`pyDiv` versus `fdiv` inside arrays).
* Fallible Python code (raised exceptions) is modelled with `Except Err`.
* Evaluation inputs (`X`/`Y` arguments and operands of the arithmetic
  nodes) are modelled by the inductive `WPLT.Value`: a Python number, a
  (possibly nested) list / numpy array, or one of the `TimeObjectAbstract`
  nodes of `time_series.py`.  `TimeApplyFunc` (arbitrary host functions)
  and `TimePow` (host power semantics) are outside the modelled fragment;
  no claim mentions them.
* Evaluation results are `WPLT.R`: a scalar or a (possibly nested) numpy
  array of scalars.  Rectangularity checks of `np.asarray` on ragged
  nested input are not modelled; no claim exercises them.
-/

namespace WPLT

/-- A Python/numpy float value: a finite rational or one of the IEEE
non-finite values. -/
inductive F where
  | fin (q : ℚ)
  | inf
  | ninf
  | nan
  deriving DecidableEq, Repr

/-- IEEE negation. -/
def fneg : F → F
  | .fin q => .fin (-q)
  | .inf => .ninf
  | .ninf => .inf
  | .nan => .nan

/-- IEEE addition (`+` on Python floats and numpy elements). -/
def fadd : F → F → F
  | .fin a, .fin b => .fin (a + b)
  | .nan, _ => .nan
  | _, .nan => .nan
  | .inf, .ninf => .nan
  | .ninf, .inf => .nan
  | .inf, _ => .inf
  | _, .inf => .inf
  | .ninf, _ => .ninf
  | _, .ninf => .ninf

/-- IEEE subtraction. -/
def fsub (a b : F) : F := fadd a (fneg b)

/-- IEEE multiplication. -/
def fmul : F → F → F
  | .fin a, .fin b => .fin (a * b)
  | .nan, _ => .nan
  | _, .nan => .nan
  | .inf, .fin b => if b = 0 then .nan else if 0 < b then .inf else .ninf
  | .fin a, .inf => if a = 0 then .nan else if 0 < a then .inf else .ninf
  | .ninf, .fin b => if b = 0 then .nan else if 0 < b then .ninf else .inf
  | .fin a, .ninf => if a = 0 then .nan else if 0 < a then .ninf else .inf
  | .inf, .inf => .inf
  | .inf, .ninf => .ninf
  | .ninf, .inf => .ninf
  | .ninf, .ninf => .inf

/-- IEEE division as numpy performs it elementwise: division by zero
produces `inf`/`-inf`/`nan` (numpy emits a warning, not an exception).
`ℚ` has no signed zero, so `x / 0` takes the positive-zero branch, which
is what numpy produces for the literal float `0.0`. -/
def fdiv : F → F → F
  | .fin a, .fin b =>
    if b = 0 then (if a = 0 then .nan else if 0 < a then .inf else .ninf)
    else .fin (a / b)
  | .nan, _ => .nan
  | _, .nan => .nan
  | .fin _, .inf => .fin 0
  | .fin _, .ninf => .fin 0
  | .inf, .fin b => if 0 ≤ b then .inf else .ninf
  | .ninf, .fin b => if 0 ≤ b then .ninf else .inf
  | .inf, .inf => .nan
  | .inf, .ninf => .nan
  | .ninf, .inf => .nan
  | .ninf, .ninf => .nan

/-- Python `<` on floats: `nan` compares false against everything. -/
def fLt : F → F → Bool
  | .fin a, .fin b => a < b
  | .fin _, .inf => true
  | .ninf, .fin _ => true
  | .ninf, .inf => true
  | _, _ => false

/-- Exceptions the modelled code can raise. -/
inductive Err where
  | zeroDivision
  | typeError
  | valueError
  | broadcast
  | noPlots
  | videoPreview
  | indexError
  deriving DecidableEq, Repr

/-- An input value of the evaluator: a Python number, a (possibly nested)
list / numpy array, or one of the `TimeObjectAbstract` nodes of
`time_series.py`.  Node constructors mirror the classes `TimeSeries`,
`TimeAdd`, `TimeSub`, `TimeRevSub`, `TimeMul`, `TimeDiv` and `TimeInvDiv`;
a node's operands may themselves be arbitrary values, exactly as in the
source, where the magic methods accept any object. -/
inductive Value where
  | num (q : ℚ)
  | vlist (l : List Value)
  | series (s e : ℚ)
  | add (a b : Value)
  | sub (a b : Value)
  | revSub (a b : Value)
  | mul (a b : Value)
  | div (a b : Value)
  | invDiv (a b : Value)

/-- `isinstance(obj, TimeObjectAbstract)`. -/
def isNode : Value → Bool
  | .num _ => false
  | .vlist _ => false
  | _ => true

/-- `isinstance(obj, Iterable)`. -/
def isIterableV : Value → Bool
  | .vlist _ => true
  | _ => false

/-- `len(obj)` for an iterable value (only called after the `Iterable`
isinstance check in the source; `0` elsewhere is never used). -/
def lenV : Value → ℕ
  | .vlist l => l.length
  | _ => 0

/-- `TimeObjectAbstract.contains_time_series`, line for line: an iterable
returns the recursive check of its FIRST element only (the `for` loop
returns on its first iteration); an empty iterable falls through the loop
and returns Python `None`, which is falsy and modelled as `false`;
everything else returns the `isinstance` check. -/
def contains_time_series : Value → Bool
  | .vlist [] => false
  | .vlist (x :: _) => contains_time_series x
  | v => isNode v

/-- An evaluation result: a scalar float or a (possibly nested) numpy
array. -/
inductive R where
  | rnum (f : F)
  | rarr (l : List R)

/-- Whether a result is an array. -/
def isArrR : R → Bool
  | .rnum _ => false
  | .rarr _ => true

/-- `len` of a result array; Python `len` on a scalar raises, scalars here
return the junk value `0` (never relied upon). -/
def lenR : R → ℕ
  | .rnum _ => 0
  | .rarr l => l.length

mutual

/-- Numpy elementwise application of a binary float operation, with scalar
broadcasting; arrays of different lengths fail to broadcast. -/
def npBin (f : F → F → F) : R → R → Except Err R
  | .rnum a, .rnum b => .ok (.rnum (f a b))
  | .rnum a, .rarr l => (npLeft f a l).map .rarr
  | .rarr l, .rnum b => (npRight f l b).map .rarr
  | .rarr l, .rarr m =>
    if l.length = m.length then (npZip f l m).map .rarr else .error .broadcast

/-- Broadcast a scalar on the left over a list of results. -/
def npLeft (f : F → F → F) (a : F) : List R → Except Err (List R)
  | [] => .ok []
  | x :: xs => do
    let r ← npScalarLeft f a x
    let rs ← npLeft f a xs
    .ok (r :: rs)

/-- Apply `f a ·` through one result. -/
def npScalarLeft (f : F → F → F) (a : F) : R → Except Err R
  | .rnum b => .ok (.rnum (f a b))
  | .rarr l => (npLeft f a l).map .rarr

/-- Broadcast a scalar on the right over a list of results. -/
def npRight (f : F → F → F) : List R → F → Except Err (List R)
  | [], _ => .ok []
  | x :: xs, b => do
    let r ← npScalarRight f x b
    let rs ← npRight f xs b
    .ok (r :: rs)

/-- Apply `f · b` through one result. -/
def npScalarRight (f : F → F → F) : R → F → Except Err R
  | .rnum a, b => .ok (.rnum (f a b))
  | .rarr l, b => (npRight f l b).map .rarr

/-- Zip two equal-length lists of results elementwise. -/
def npZip (f : F → F → F) : List R → List R → Except Err (List R)
  | [], _ => .ok []
  | _ :: _, [] => .ok []
  | x :: xs, y :: ys => do
    let r ← npBin f x y
    let rs ← npZip f xs ys
    .ok (r :: rs)

end

/-- Python `x + y` as the evaluator meets it: scalar + scalar is plain
float addition, anything involving an array is numpy elementwise. -/
def pyAdd : R → R → Except Err R := npBin fadd

/-- Python `x - y`. -/
def pySub : R → R → Except Err R := npBin fsub

/-- Python `x * y`. -/
def pyMul : R → R → Except Err R := npBin fmul

/-- Python `x / y`: on two Python scalars a zero divisor raises
`ZeroDivisionError`; as soon as a numpy array is involved the division is
elementwise IEEE and never raises. -/
def pyDiv : R → R → Except Err R
  | .rnum a, .rnum b =>
    if b = .fin 0 then .error .zeroDivision else .ok (.rnum (fdiv a b))
  | x, y => npBin fdiv x y

mutual

/-- `TimeObjectAbstract.evaluate_ext` combined with the `evaluate` methods
of the node classes it dispatches to: a node evaluates per its class
(`TimeSeries` is `start + t*(end-start)`; the operation nodes evaluate
`op1` and `op2` with `evaluate_ext` — in the order the source writes
them — and combine); an iterable maps `evaluate_ext` over its items into
an array (`np.asarray`); any other object is returned unchanged. -/
def evaluate_ext : Value → ℚ → Except Err R
  | .num q, _ => .ok (.rnum (.fin q))
  | .vlist l, t => (evaluateItems l t).map .rarr
  | .series s e, t => .ok (.rnum (.fin (s + t * (e - s))))
  | .add a b, t => do
    let x ← evaluate_ext a t
    let y ← evaluate_ext b t
    pyAdd x y
  | .sub a b, t => do
    let x ← evaluate_ext a t
    let y ← evaluate_ext b t
    pySub x y
  | .revSub a b, t => do
    let y ← evaluate_ext b t
    let x ← evaluate_ext a t
    pySub y x
  | .mul a b, t => do
    let x ← evaluate_ext a t
    let y ← evaluate_ext b t
    pyMul x y
  | .div a b, t => do
    let x ← evaluate_ext a t
    let y ← evaluate_ext b t
    pyDiv x y
  | .invDiv a b, t => do
    let y ← evaluate_ext b t
    let x ← evaluate_ext a t
    pyDiv y x

/-- The list comprehension `[evaluate_ext(item, t) for item in ext]`. -/
def evaluateItems : List Value → ℚ → Except Err (List R)
  | [], _ => .ok []
  | x :: xs, t => do
    let r ← evaluate_ext x t
    let rs ← evaluateItems xs t
    .ok (r :: rs)

end

/-- `TimeObjectAbstract.evaluate_total`: an iterable maps `evaluate_ext`
over its items into an array; any other object (a bare number or a bare
node) is passed to `evaluate_ext` and its result returned as is — the
scalar is NOT wrapped in an array. -/
def evaluate_total (obj : Value) (t : ℚ) : Except Err R :=
  match obj with
  | .vlist l => (evaluateItems l t).map .rarr
  | v => evaluate_ext v t

/-- `TimeSeries.TIME_RANGE`. -/
def TIME_RANGE : ℕ := 100

/-- The time value of frame `i`: `i / (TIME_RANGE - 1)`. -/
def tAt (i : ℕ) : ℚ := (i : ℚ) / ((TIME_RANGE : ℚ) - 1)

/-- The body of the loop in `TimePlot.evaluate` over a list of frame
indices: each index `i` contributes the pair
`(evaluate_total X tᵢ, evaluate_total Y tᵢ)`, appended in order; a raised
exception aborts the whole loop. -/
def evalFrames (X Y : Value) : List ℕ → Except Err (List (R × R))
  | [] => .ok []
  | i :: is => do
    let x ← evaluate_total X (tAt i)
    let y ← evaluate_total Y (tAt i)
    let rest ← evalFrames X Y is
    .ok ((x, y) :: rest)

/-- `TimePlot.evaluate`: one frame per `i in range(TIME_RANGE)`. -/
def timePlotEvaluate (X Y : Value) : Except Err (List (R × R)) :=
  evalFrames X Y (List.range TIME_RANGE)

/-- The `result` of an evaluated plot: `Plot.evaluate` stores the raw
`(X, Y)` pair unchanged; `TimePlot.evaluate` stores the list of
time-sampled frames. -/
inductive PlotResult where
  | static (X Y : Value)
  | timed (frames : List (R × R))

/-! ## CartesianPlane -/

/-- `CartesianPlane`: axis bounds are `None` until first established;
established bounds are floats (`F`).  Field names follow the source. -/
structure CPlane where
  x_left : Option F := none
  x_right : Option F := none
  x_fixed : Bool := false
  y_bottom : Option F := none
  y_top : Option F := none
  y_fixed : Bool := false
  x_axis : Bool := false
  y_axis : Bool := false
  grid : Bool := false
  grid_steps : Option (ℤ × ℤ) := none
  deriving DecidableEq, Repr

/-- Python `prev or dflt` for a nullable float `prev`: `None` and the
float `0.0` are falsy (`inf`, `-inf` and `nan` are truthy). -/
def pyOr (prev : Option F) (dflt : F) : F :=
  match prev with
  | none => dflt
  | some v => if v = .fin 0 then dflt else v

/-- Python `min(item, acc)`: the two-argument builtin returns its first
argument unless the second compares strictly smaller. -/
def pyMin (item acc : F) : F := if fLt acc item then acc else item

/-- Python `max(item, acc)`: returns its first argument unless the second
compares strictly larger. -/
def pyMax (item acc : F) : F := if fLt item acc then acc else item

/-- `CartesianPlane.recalculate.find_min_max`, line for line: seed from
`prev or arr[0]` (Python truthiness — `arr[0]` is also used when a prior
bound is exactly `0`), skip the scan entirely when the axis is fixed,
otherwise fold `min`/`max` over the whole array.  `arr[0]` on an empty
array raises `IndexError`. -/
def find_min_max (arr : List F) (prev_min prev_max : Option F) (is_fixed : Bool) :
    Except Err (F × F) :=
  match arr with
  | [] => .error .indexError
  | a0 :: _ =>
    let m0 := pyOr prev_min a0
    let M0 := pyOr prev_max a0
    if is_fixed then .ok (m0, M0)
    else .ok (arr.foldl (fun acc item => pyMin item acc) m0,
              arr.foldl (fun acc item => pyMax item acc) M0)

/-- An element of a static plot's coordinate container, as the `min`/`max`
comparisons of `find_min_max` meet it: only a Python number is usable;
comparing a node or a nested list against a float raises `TypeError`. -/
def valScalar : Value → Except Err F
  | .num q => .ok (.fin q)
  | _ => .error .typeError

/-- Iterating `vals[0]` (or `vals[1]`) of a static plot result: only an
iterable can be iterated; iterating a number or a node raises
`TypeError`. -/
def outerItems : Value → Except Err (List Value)
  | .vlist l => .ok l
  | _ => .error .typeError

/-- An element of an evaluated (numpy) frame coordinate, as `min`/`max`
meet it: a scalar is usable; a nested array raises on comparison. -/
def rScalar : R → Except Err F
  | .rnum f => .ok f
  | .rarr _ => .error .valueError

/-- Iterating an evaluated frame coordinate: a numpy array iterates into
its elements; a scalar raises `TypeError`. -/
def rOuterItems : R → Except Err (List R)
  | .rarr l => .ok l
  | .rnum _ => .error .typeError

/-- The flattening comprehension of `CartesianPlane.recalculate` for one
axis of a static plot (`values = [plot.result]`). -/
def flattenStatic (coord : Value) : Except Err (List F) := do
  let items ← outerItems coord
  items.mapM valScalar

/-- The flattening comprehension of `CartesianPlane.recalculate` for one
axis across the frames of a time plot. -/
def flattenTimed (frames : List (R × R)) (proj : R × R → R) : Except Err (List F) := do
  let nested ← frames.mapM (fun fr => do
    let items ← rOuterItems (proj fr)
    items.mapM rScalar)
  .ok nested.flatten

/-- The flattened X-values of an evaluated plot result. -/
def flattenX : PlotResult → Except Err (List F)
  | .static X _ => flattenStatic X
  | .timed frames => flattenTimed frames Prod.fst

/-- The flattened Y-values of an evaluated plot result. -/
def flattenY : PlotResult → Except Err (List F)
  | .static _ Y => flattenStatic Y
  | .timed frames => flattenTimed frames Prod.snd

/-- `CartesianPlane.recalculate` on an evaluated plot: flatten the result
into one X array and one Y array, then adjust each axis with
`find_min_max`. -/
def recalculate (p : CPlane) (res : PlotResult) : Except Err CPlane := do
  let X ← flattenX res
  let Y ← flattenY res
  let xb ← find_min_max X p.x_left p.x_right p.x_fixed
  let yb ← find_min_max Y p.y_bottom p.y_top p.y_fixed
  .ok { p with x_left := some xb.1, x_right := some xb.2,
               y_bottom := some yb.1, y_top := some yb.2 }

/-- `CartesianPlane.set_xrange`: integer endpoints, equal endpoints raise
`ValueError`, re-locking only warns; the bounds are stored and the axis
locked. -/
def set_xrange (p : CPlane) (x_left x_right : ℤ) : Except Err CPlane :=
  if x_left = x_right then .error .valueError
  else .ok { p with x_left := some (.fin x_left), x_right := some (.fin x_right),
                    x_fixed := true }

/-- `CartesianPlane.set_yrange`. -/
def set_yrange (p : CPlane) (y_bottom y_top : ℤ) : Except Err CPlane :=
  if y_bottom = y_top then .error .valueError
  else .ok { p with y_bottom := some (.fin y_bottom), y_top := some (.fin y_top),
                    y_fixed := true }

/-- `CartesianPlane.set_grid`. -/
def set_grid (p : CPlane) (x_steps y_steps : ℤ) : Except Err CPlane :=
  if x_steps = 0 ∨ y_steps = 0 then .error .valueError
  else .ok { p with grid := true, grid_steps := some (x_steps, y_steps) }

/-! ## Tick-step planner -/

/-- `10 ** n` over ℚ for an integer exponent, written so that it
kernel-evaluates. -/
def pow10 (n : ℤ) : ℚ :=
  if 0 ≤ n then ((10 : ℕ) ^ n.toNat : ℕ)
  else 1 / ((10 : ℕ) ^ (-n).toNat : ℕ)

/-- Mathematical floor of a rational (`q.den` is positive, so integer
euclidean division of the numerator gives the floor); Python's `//` on
floats. -/
def qfloor (q : ℚ) : ℤ := q.num / (q.den : ℤ)

/-- Absolute value, Python `abs`. -/
def qabs (q : ℚ) : ℚ := if q < 0 then -q else q

/-- Round to the nearest integer, ties to even: Python's `round` on a
float (ignoring binary representation error, which none of the checked
inputs exhibit). -/
def roundHalfEven (q : ℚ) : ℤ :=
  let f := qfloor q
  let r := q - (f : ℚ)
  if r < 1/2 then f
  else if 1/2 < r then f + 1
  else if f % 2 = 0 then f else f + 1

/-- Python `round(x, n)` for integer `n` (negative `n` rounds to tens,
hundreds, ...). -/
def pyRound (x : ℚ) (n : ℤ) : ℚ :=
  let p := pow10 n
  (roundHalfEven (x * p) : ℚ) / p

/-- `CartesianPlane._round_steps.update_decimals`: compare how many
multiples of the current precision's power of ten the old and the new
seed hold, and move the decimal counter accordingly. -/
def update_decimals (old new : ℚ) (decimals : ℤ) : ℤ :=
  let old_cmp := qfloor (old / pow10 (-decimals))
  let new_cmp := qfloor (new / pow10 (-decimals))
  if old_cmp > new_cmp then decimals + 1
  else if old_cmp < new_cmp then decimals - 1
  else decimals

/-- `CartesianPlane._round_steps`, line for line, with an explicit
recursion-depth fuel (the source recurses without a bound; `none` means
the recursion did not settle within `fuel` steps, every `some` answer is
the answer of the source): zero target short-circuits to `(0, 0)`; a
negative target flips a positive seed; of the four factor-2/5 neighbours
the strictly closest (first wins ties) replaces the seed, adjusting the
decimal counter, until the seed itself is closest. -/
def round_steps (fuel : ℕ) (num start : ℚ) (decimals : ℤ) : Option (ℚ × ℤ) :=
  match fuel with
  | 0 => none
  | fuel + 1 =>
    if num = 0 then some (0, 0)
    else
      let start := if num < 0 ∧ 0 < start then -start else start
      let alts := [start / 5, start / 2, start * 2, start * 5]
      let best_alt := alts.foldl
        (fun best alt => if qabs (alt - num) < qabs (best - num) then alt else best) start
      if best_alt = start then some (start, decimals)
      else round_steps fuel num best_alt (update_decimals start best_alt decimals)

/-- `CartesianPlane.X_TICKS`. -/
def X_TICKS : ℚ := 10

/-- `CartesianPlane.Y_TICKS`. -/
def Y_TICKS : ℚ := 8

/-- The generator loop shared by `get_xsteps`/`get_ysteps`:
`while x <= bound: yield x; x = round(x + step, decimals)`.  `fuel` bounds
how many iterations are unrolled; the `Bool` is `true` when the loop
exited by its condition within the fuel, `false` when it was still
running. -/
def stepsLoop (bound step : ℚ) (decimals : ℤ) : ℕ → ℚ → List ℚ × Bool
  | 0, _ => ([], false)
  | fuel + 1, x =>
    if x ≤ bound then
      let rest := stepsLoop bound step decimals fuel (pyRound (x + step) decimals)
      (x :: rest.1, rest.2)
    else ([], true)

/-- `CartesianPlane.get_xsteps` for a plane whose x bounds are established
finite floats (the modelled fragment; with `None` bounds the subtraction
raises): step and precision from `_round_steps` of `delta / X_TICKS`, the
starting tick from `_round_steps` of the axis minimum, then the yield
loop. -/
def get_xsteps (p : CPlane) (rsFuel loopFuel : ℕ) : Option (List ℚ × Bool) :=
  match p.x_left, p.x_right with
  | some (.fin l), some (.fin r) => do
    let s ← round_steps rsFuel (qabs (r - l) / X_TICKS) 10 (-1)
    let s0 ← round_steps rsFuel l 10 (-1)
    some (stepsLoop r s.1 s.2 loopFuel s0.1)
  | _, _ => none

/-- `CartesianPlane.get_ysteps`, symmetrically with `Y_TICKS`. -/
def get_ysteps (p : CPlane) (rsFuel loopFuel : ℕ) : Option (List ℚ × Bool) :=
  match p.y_bottom, p.y_top with
  | some (.fin b), some (.fin t) => do
    let s ← round_steps rsFuel (qabs (t - b) / Y_TICKS) 10 (-1)
    let s0 ← round_steps rsFuel b 10 (-1)
    some (stepsLoop t s.1 s.2 loopFuel s0.1)
  | _, _ => none

/-! ## Figure and the global figure -/

/-- The mutable state of a `Figure` (the fixed `figsize` plays no role in
any modelled behaviour and is omitted). -/
structure FigState where
  plots : List PlotResult := []
  video : Bool := false
  use_legend : Bool := false
  title_text : Option String := none
  c_plane : CPlane := {}

/-- `Figure.plot`: validate the arguments exactly as the source does,
classify the plot with the shallow `contains_time_series` check (setting
`video` on a time plot and leaving it alone otherwise), evaluate the plot,
recalculate the plane, and append the evaluated plot. -/
def figPlot (s : FigState) (X Y : Value) : Except Err FigState :=
  if ¬(isIterableV X || isNode X) then .error .typeError
  else if ¬(isIterableV Y || isNode Y) then .error .typeError
  else if (isIterableV X && lenV X == 0) || (isIterableV Y && lenV Y == 0) then
    .error .valueError
  else if isIterableV X && isIterableV Y && lenV X != lenV Y then .error .valueError
  else
    let isTime := contains_time_series X || contains_time_series Y
    match (if isTime then PlotResult.timed <$> timePlotEvaluate X Y
           else .ok (PlotResult.static X Y)) with
    | .error e => .error e
    | .ok res =>
      match recalculate s.c_plane res with
      | .error e => .error e
      | .ok plane =>
        .ok { s with video := if isTime then true else s.video,
                     c_plane := plane,
                     plots := s.plots ++ [res] }

/-- `Figure.xrange` (pass-through to `set_xrange`). -/
def figXrange (s : FigState) (a b : ℤ) : Except Err FigState :=
  (set_xrange s.c_plane a b).map (fun cp => { s with c_plane := cp })

/-- `Figure.yrange`. -/
def figYrange (s : FigState) (a b : ℤ) : Except Err FigState :=
  (set_yrange s.c_plane a b).map (fun cp => { s with c_plane := cp })

/-- `Figure.xaxis` (re-enabling only warns). -/
def figXaxis (s : FigState) : FigState :=
  { s with c_plane := { s.c_plane with x_axis := true } }

/-- `Figure.yaxis`. -/
def figYaxis (s : FigState) : FigState :=
  { s with c_plane := { s.c_plane with y_axis := true } }

/-- `Figure.grid`. -/
def figGrid (s : FigState) (x_steps y_steps : ℤ) : Except Err FigState :=
  (set_grid s.c_plane x_steps y_steps).map (fun cp => { s with c_plane := cp })

/-- `Figure.legend` (re-enabling only warns). -/
def figLegend (s : FigState) : FigState := { s with use_legend := true }

/-- `Figure.title` (overriding only warns; empty titles raise). -/
def figTitle (s : FigState) (txt : String) : Except Err FigState :=
  if txt.length = 0 then .error .valueError
  else .ok { s with title_text := some txt }

/-- The global `preview()` of `global_figure.py`: `Figure.preview` raises
with no plots or on a video figure; on success the wrapper clears the
plots list — and nothing else. -/
def previewG (s : FigState) : Except Err FigState :=
  if s.plots.isEmpty then .error .noPlots
  else if s.video then .error .videoPreview
  else .ok { s with plots := [] }

/-- The global `save()` of `global_figure.py`: `Figure.save` raises with
no plots, otherwise renders as a video exactly when the `video` flag is
set (the returned `Bool`); the wrapper then clears the plots list — and
nothing else. -/
def saveG (s : FigState) : Except Err (FigState × Bool) :=
  if s.plots.isEmpty then .error .noPlots
  else .ok ({ s with plots := [] }, s.video)

/-- One user-visible operation on the (global) figure. -/
inductive FigOp where
  | plot (X Y : Value)
  | xrange (a b : ℤ)
  | yrange (a b : ℤ)
  | xaxis
  | yaxis
  | grid (a b : ℤ)
  | legend
  | title (txt : String)
  | preview
  | save

/-- Apply one operation to the figure state (for `save`, the state after
the reset). -/
def applyOp : FigOp → FigState → Except Err FigState
  | .plot X Y, s => figPlot s X Y
  | .xrange a b, s => figXrange s a b
  | .yrange a b, s => figYrange s a b
  | .xaxis, s => .ok (figXaxis s)
  | .yaxis, s => .ok (figYaxis s)
  | .grid a b, s => figGrid s a b
  | .legend, s => .ok (figLegend s)
  | .title txt, s => figTitle s txt
  | .preview, s => previewG s
  | .save, s => (saveG s).map Prod.fst

/-! ## Auxiliary lemmas -/

/-- A successful `evaluateItems` yields one result per item. -/
theorem evaluateItems_length : ∀ (l : List Value) (t : ℚ) (rs : List R),
    evaluateItems l t = .ok rs → rs.length = l.length
  | [], _, rs, h => by
    simp only [evaluateItems] at h
    cases h
    rfl
  | x :: xs, t, rs, h => by
    simp only [evaluateItems] at h
    cases hx : evaluate_ext x t with
    | error e => rw [hx] at h; cases h
    | ok r =>
      rw [hx] at h
      cases hxs : evaluateItems xs t with
      | error e => rw [hxs] at h; cases h
      | ok rest =>
        rw [hxs] at h
        cases h
        simp [evaluateItems_length xs t rest hxs]

/-- A node is reachable from a value by repeatedly taking only the first
element of each nested iterable. -/
inductive NodeViaFirst : Value → Prop where
  | here (v : Value) : isNode v = true → NodeViaFirst v
  | head (x : Value) (xs : List Value) : NodeViaFirst x → NodeViaFirst (.vlist (x :: xs))

/-- The shallow scan agrees with first-element reachability. -/
theorem contains_iff_aux : ∀ v, contains_time_series v = true ↔ NodeViaFirst v
  | .num q => by
    constructor
    · intro h
      simp [contains_time_series, isNode] at h
    · intro h
      cases h with
      | here _ hn => simp [isNode] at hn
  | .vlist [] => by
    constructor
    · intro h
      simp [contains_time_series] at h
    · intro h
      cases h with
      | here _ hn => simp [isNode] at hn
  | .vlist (x :: xs) => by
    rw [show contains_time_series (.vlist (x :: xs)) = contains_time_series x from rfl,
        contains_iff_aux x]
    constructor
    · exact fun h => .head x xs h
    · intro h
      cases h with
      | here _ hn => simp [isNode] at hn
      | head _ _ hx => exact hx
  | .series s e => ⟨fun _ => .here _ rfl, fun _ => rfl⟩
  | .add a b => ⟨fun _ => .here _ rfl, fun _ => rfl⟩
  | .sub a b => ⟨fun _ => .here _ rfl, fun _ => rfl⟩
  | .revSub a b => ⟨fun _ => .here _ rfl, fun _ => rfl⟩
  | .mul a b => ⟨fun _ => .here _ rfl, fun _ => rfl⟩
  | .div a b => ⟨fun _ => .here _ rfl, fun _ => rfl⟩
  | .invDiv a b => ⟨fun _ => .here _ rfl, fun _ => rfl⟩

/-! ## The claims -/

/-- C5: for every `TimeSeries(a, b)` (the spec's `Ramp`), `evaluate(0)`
is exactly `a`, `evaluate(1)` is exactly `b`, and `evaluate(t)` is
`a + t*(b - a)`. -/
theorem c5_ramp_endpoints (a b t : ℚ) :
    evaluate_ext (.series a b) 0 = .ok (.rnum (.fin a)) ∧
    evaluate_ext (.series a b) 1 = .ok (.rnum (.fin b)) ∧
    evaluate_ext (.series a b) t = .ok (.rnum (.fin (a + t * (b - a)))) := by
  refine ⟨?_, ?_, rfl⟩
  · exact congrArg (fun q => Except.ok (R.rnum (.fin q))) (by ring)
  · exact congrArg (fun q => Except.ok (R.rnum (.fin q))) (by ring)

/-- C4 counterexample: dividing by a node that evaluates to the scalar 0
raises `ZeroDivisionError` — it does not return a non-finite float.
`TimeDiv(1, TimeSeries(0,0))` and `TimeInvDiv(TimeSeries(0,0), 1)` (which
is `1 / TimeSeries(0,0)`) both raise at `t = 1/2`. -/
theorem c4_scalar_zero_division_raises_cex :
    evaluate_ext (.div (.num 1) (.series 0 0)) (1/2) = .error .zeroDivision ∧
    evaluate_ext (.invDiv (.series 0 0) (.num 1)) (1/2) = .error .zeroDivision := by
  constructor
  · with_unfolding_all rfl
  · with_unfolding_all rfl

/-- C4 as amended: whenever both operands of `TimeDiv(a, b)` evaluate to
Python scalars and the divisor `b` evaluates to exactly 0, evaluation
raises `ZeroDivisionError` (host scalar-division semantics, no
special-cased handling in the evaluator); likewise for
`TimeInvDiv(b, a)`, whose divisor is its first operand.  Non-finite
`inf`/`nan` results arise only when a numpy array is involved. -/
theorem c4_scalar_zero_division_raises (a b : Value) (t : ℚ) (ra : F)
    (ha : evaluate_ext a t = .ok (.rnum ra))
    (hb : evaluate_ext b t = .ok (.rnum (.fin 0))) :
    evaluate_ext (.div a b) t = .error .zeroDivision ∧
    evaluate_ext (.invDiv b a) t = .error .zeroDivision := by
  constructor
  · show (do
        let x ← evaluate_ext a t
        let y ← evaluate_ext b t
        pyDiv x y) = Except.error Err.zeroDivision
    rw [ha, hb]
    rfl
  · show (do
        let y ← evaluate_ext a t
        let x ← evaluate_ext b t
        pyDiv y x) = Except.error Err.zeroDivision
    rw [ha, hb]
    rfl

/-- C4 witness: the amended statement at `TimeDiv(1, TimeSeries(0,0))`
and `t = 1/2`. -/
theorem c4_scalar_zero_division_raises_witness :
    evaluate_ext (.div (.num 1) (.series 0 0)) (1/2) = .error .zeroDivision ∧
    evaluate_ext (.invDiv (.series 0 0) (.num 1)) (1/2) = .error .zeroDivision :=
  c4_scalar_zero_division_raises (.num 1) (.series 0 0) (1/2) (.fin 1)
    (by with_unfolding_all rfl) (by with_unfolding_all rfl)

/-- C3 counterexample: `evaluate_total` on a bare number returns the bare
scalar, not a length-1 array. -/
theorem c3_scalar_not_wrapped_cex :
    evaluate_total (.num 5) 0 = .ok (.rnum (.fin 5)) ∧
    (evaluate_total (.num 5) 0).map isArrR = .ok false ∧
    (evaluate_total (.series 3 3) 0).map isArrR = .ok false := by
  refine ⟨rfl, rfl, ?_⟩
  with_unfolding_all rfl

/-- C3 as amended: `evaluate_total` returns an array exactly when the
top-level input is iterable — then it maps `evaluate_ext` elementwise and
the array has one entry per element; a non-iterable input (a bare number
or bare node) is evaluated by `evaluate_ext` and returned as is, NOT
wrapped in a length-1 array. -/
theorem c3_evaluate_total_shape :
    (∀ (l : List Value) (t : ℚ) (r : R), evaluate_total (.vlist l) t = .ok r →
      isArrR r = true ∧ lenR r = l.length) ∧
    (∀ (v : Value) (t : ℚ), isIterableV v = false → evaluate_total v t = evaluate_ext v t) ∧
    (∀ (q t : ℚ), evaluate_total (.num q) t = .ok (.rnum (.fin q))) := by
  refine ⟨?_, ?_, fun q t => rfl⟩
  · intro l t r h
    replace h : (evaluateItems l t).map R.rarr = .ok r := h
    cases hl : evaluateItems l t with
    | error e => rw [hl] at h; cases h
    | ok rs =>
      rw [hl] at h
      cases h
      exact ⟨rfl, evaluateItems_length l t rs hl⟩
  · intro v t _
    cases v <;> rfl

/-- C6: `contains_time_series` returns true iff a node is reachable by
repeatedly taking only the first element of each nested iterable; in
particular `[constant, node, constant]` is classified as static. -/
theorem c6_contains_time_series_iff :
    (∀ v, contains_time_series v = true ↔ NodeViaFirst v) ∧
    contains_time_series (.vlist [.num 1, .series 0 1, .num 3]) = false :=
  ⟨contains_iff_aux, rfl⟩

/-- C7 counterexample: on target `0.1` (span 1, 10 ticks) the rounding
recursion descends `10 → 2 → 0.4 → 0.08` and settles on step
`0.08 = 2/25` with precision 2 — not on step `0.1`. -/
theorem c7_round_steps_tenth_cex :
    round_steps 10 (1/10) 10 (-1) = some (2/25, 2) ∧ (2/25 : ℚ) ≠ 1/10 := by
  with_unfolding_all decide

/-- C7 as amended: on target 10 (span 100, 10 ticks) `_round_steps`
returns step 10; on target 0 it short-circuits to step 0 with precision
0; but on target `0.1` (span 1, 10 ticks) it returns step `0.08 = 2/25`
with precision 2, not step `0.1`. -/
theorem c7_round_steps_anchors :
    round_steps 10 10 10 (-1) = some (10, -1) ∧
    round_steps 10 0 10 (-1) = some (0, 0) ∧
    round_steps 10 (1/10) 10 (-1) = some (2/25, 2) := by
  with_unfolding_all decide

/-- C1: the code violates locked-axis invariance when a locked bound is
exactly 0.  `set_xrange(0, 5)` locks the x-axis at `(0, 5)`, but a
subsequent `recalculate` with a plot whose first x-value is 3 leaves
`x_left = 3`: the seed `prev_min or arr[0]` treats the locked bound `0`
as falsy and replaces it with `arr[0]`, although `is_fixed` then skips
the scan.  (A lock with both bounds nonzero does survive.) -/
theorem c1_locked_zero_bound_overwritten :
    (do
      let p ← set_xrange {} 0 5
      recalculate p (.static (.vlist [.num 3, .num 4]) (.vlist [.num 1, .num 2]))) =
    .ok { x_left := some (.fin 3), x_right := some (.fin 5), x_fixed := true,
          y_bottom := some (.fin 1), y_top := some (.fin 2) } ∧
    (do
      let p ← set_xrange {} 1 5
      recalculate p (.static (.vlist [.num 30, .num 40]) (.vlist [.num 1, .num 2]))) =
    .ok { x_left := some (.fin 1), x_right := some (.fin 5), x_fixed := true,
          y_bottom := some (.fin 1), y_top := some (.fin 2) } := by
  constructor
  · with_unfolding_all rfl
  · with_unfolding_all rfl

/-- C2: on an unlocked axis the resulting bounds do NOT always equal the
running min/max when an intermediate bound is exactly 0.  After
recalculating with x-values `[-1, 0]` the x-axis is `(-1, 0)`; a second
recalculate with x-values `[-5, -3]` reseeds the max from `arr[0]`
(`prev_max or arr[0]` with `prev_max == 0`) and yields `(-5, -3)`: the
upper bound SHRANK from 0 to -3, though the true max over all observed
values is 0. -/
theorem c2_unlocked_bounds_shrink_at_zero :
    (do
      let p1 ← recalculate {} (.static (.vlist [.num (-1), .num 0]) (.vlist [.num 1, .num 2]))
      recalculate p1 (.static (.vlist [.num (-5), .num (-3)]) (.vlist [.num 1, .num 2]))) =
    .ok { x_left := some (.fin (-5)), x_right := some (.fin (-3)),
          y_bottom := some (.fin 1), y_top := some (.fin 2) } := by
  with_unfolding_all rfl

/-- Every tick the yield loop emits obeys the loop condition, the first
emitted tick is the loop's start value, and a start beyond the bound
emits nothing. -/
theorem stepsLoop_spec (bound step : ℚ) (dec : ℤ) :
    ∀ (fuel : ℕ) (x : ℚ),
      (∀ q ∈ (stepsLoop bound step dec fuel x).1, q ≤ bound) ∧
      (0 < fuel → x ≤ bound → ((stepsLoop bound step dec fuel x).1).head? = some x) ∧
      (0 < fuel → ¬x ≤ bound → (stepsLoop bound step dec fuel x).1 = [])
  | 0, x => by
    refine ⟨?_, ?_, ?_⟩
    · intro q hq
      simp [stepsLoop] at hq
    · intro hf
      exact absurd hf (by simp)
    · intro hf
      exact absurd hf (by simp)
  | fuel + 1, x => by
    by_cases hx : x ≤ bound
    · have hrw : stepsLoop bound step dec (fuel + 1) x =
          (x :: (stepsLoop bound step dec fuel (pyRound (x + step) dec)).1,
           (stepsLoop bound step dec fuel (pyRound (x + step) dec)).2) := by
        simp [stepsLoop, hx]
      rw [hrw]
      refine ⟨?_, fun _ _ => rfl, fun _ hc => absurd hx hc⟩
      intro q hq
      rcases List.mem_cons.mp hq with h | h
      · exact h ▸ hx
      · exact (stepsLoop_spec bound step dec fuel (pyRound (x + step) dec)).1 q h
    · have hrw : stepsLoop bound step dec (fuel + 1) x = ([], true) := by
        simp [stepsLoop, hx]
      rw [hrw]
      exact ⟨fun q hq => absurd hq (List.not_mem_nil q), fun _ hc => absurd hc hx, fun _ _ => rfl⟩

/-- C8 counterexample: with established bounds `(0, 200)` (positive
span), the step planner returns step 20 at precision -2, and
`round(0 + 20, -2) = 0`, so the x-tick generator yields `0` again and
again: the emitted sequence is not strictly ascending and the loop never
finishes (the `false` flag: the loop was still running when the unrolling
fuel ran out — here shown for 2 and for 50 iterations, each yielding only
zeros). -/
theorem c8_ticks_nonascending_cex :
    get_xsteps { x_left := some (.fin 0), x_right := some (.fin 200) } 10 2 =
      some ([0, 0], false) ∧
    get_xsteps { x_left := some (.fin 0), x_right := some (.fin 200) } 10 50 =
      some (List.replicate 50 0, false) ∧
    round_steps 10 (qabs (200 - 0) / X_TICKS) 10 (-1) = some (20, -2) ∧
    pyRound (0 + 20) (-2) = 0 := by
  refine ⟨?_, ?_, ?_, ?_⟩ <;> with_unfolding_all decide

/-- C8 as amended: every tick the generators yield is at most the axis
maximum, and when at least one tick is yielded the first one is the
snapped start produced by `_round_steps` of the axis minimum; but the
sequence need not be finite nor strictly ascending (bounds `(0, 200)`
yield `0` forever). -/
theorem c8_ticks_bounded_and_snapped :
    (∀ (p : CPlane) (l r : ℚ) (rsFuel loopFuel : ℕ) (steps : List ℚ) (flag : Bool),
      p.x_left = some (.fin l) → p.x_right = some (.fin r) →
      get_xsteps p rsFuel loopFuel = some (steps, flag) →
      (∀ q ∈ steps, q ≤ r) ∧
      (∀ x0 d0, round_steps rsFuel l 10 (-1) = some (x0, d0) → 0 < loopFuel → x0 ≤ r →
        steps.head? = some x0)) ∧
    (∀ (p : CPlane) (b t : ℚ) (rsFuel loopFuel : ℕ) (steps : List ℚ) (flag : Bool),
      p.y_bottom = some (.fin b) → p.y_top = some (.fin t) →
      get_ysteps p rsFuel loopFuel = some (steps, flag) →
      (∀ q ∈ steps, q ≤ t) ∧
      (∀ y0 d0, round_steps rsFuel b 10 (-1) = some (y0, d0) → 0 < loopFuel → y0 ≤ t →
        steps.head? = some y0)) := by
  constructor
  · intro p l r rsFuel loopFuel steps flag hl hr hg
    unfold get_xsteps at hg
    rw [hl, hr] at hg
    replace hg : (do
        let s ← round_steps rsFuel (qabs (r - l) / X_TICKS) 10 (-1)
        let s0 ← round_steps rsFuel l 10 (-1)
        some (stepsLoop r s.1 s.2 loopFuel s0.1)) = some (steps, flag) := hg
    cases hs : round_steps rsFuel (qabs (r - l) / X_TICKS) 10 (-1) with
    | none => rw [hs] at hg; cases hg
    | some s =>
      rw [hs] at hg
      cases hs0 : round_steps rsFuel l 10 (-1) with
      | none => rw [hs0] at hg; cases hg
      | some s0 =>
        rw [hs0] at hg
        replace hg : some (stepsLoop r s.1 s.2 loopFuel s0.1) = some (steps, flag) := hg
        have hsteps : steps = (stepsLoop r s.1 s.2 loopFuel s0.1).1 :=
          (congrArg Prod.fst (Option.some.inj hg)).symm
        constructor
        · rw [hsteps]
          exact (stepsLoop_spec r s.1 s.2 loopFuel s0.1).1
        · intro x0 d0 h0 hf hx0
          have hx0s : s0.1 = x0 := congrArg Prod.fst (Option.some.inj h0)
          rw [hsteps, ← hx0s]
          exact (stepsLoop_spec r s.1 s.2 loopFuel s0.1).2.1 hf (by rw [hx0s]; exact hx0)
  · intro p b t rsFuel loopFuel steps flag hb ht hg
    unfold get_ysteps at hg
    rw [hb, ht] at hg
    replace hg : (do
        let s ← round_steps rsFuel (qabs (t - b) / Y_TICKS) 10 (-1)
        let s0 ← round_steps rsFuel b 10 (-1)
        some (stepsLoop t s.1 s.2 loopFuel s0.1)) = some (steps, flag) := hg
    cases hs : round_steps rsFuel (qabs (t - b) / Y_TICKS) 10 (-1) with
    | none => rw [hs] at hg; cases hg
    | some s =>
      rw [hs] at hg
      cases hs0 : round_steps rsFuel b 10 (-1) with
      | none => rw [hs0] at hg; cases hg
      | some s0 =>
        rw [hs0] at hg
        replace hg : some (stepsLoop t s.1 s.2 loopFuel s0.1) = some (steps, flag) := hg
        have hsteps : steps = (stepsLoop t s.1 s.2 loopFuel s0.1).1 :=
          (congrArg Prod.fst (Option.some.inj hg)).symm
        constructor
        · rw [hsteps]
          exact (stepsLoop_spec t s.1 s.2 loopFuel s0.1).1
        · intro y0 d0 h0 hf hy0
          have hy0s : s0.1 = y0 := congrArg Prod.fst (Option.some.inj h0)
          rw [hsteps, ← hy0s]
          exact (stepsLoop_spec t s.1 s.2 loopFuel s0.1).2.1 hf (by rw [hy0s]; exact hy0)

/-- A successful `evalFrames` run yields one frame per index, and the
frame at position `k` is the pair of `evaluate_total` results at the time
of the `k`-th index. -/
theorem evalFrames_spec (X Y : Value) : ∀ (idxs : List ℕ) (frames : List (R × R)),
    evalFrames X Y idxs = .ok frames →
    frames.length = idxs.length ∧
    (∀ k (hk : k < idxs.length) (hk2 : k < frames.length),
      Except.ok (frames.get ⟨k, hk2⟩) = (do
        let x ← evaluate_total X (tAt (idxs.get ⟨k, hk⟩))
        let y ← evaluate_total Y (tAt (idxs.get ⟨k, hk⟩))
        Except.ok (x, y)))
  | [], frames, h => by
    replace h : Except.ok ([] : List (R × R)) = .ok frames := h
    cases h
    exact ⟨rfl, fun k hk _ => absurd hk (Nat.not_lt_zero k)⟩
  | i :: idxs, frames, h => by
    simp only [evalFrames] at h
    cases hx : evaluate_total X (tAt i) with
    | error e => rw [hx] at h; cases h
    | ok x =>
      rw [hx] at h
      cases hy : evaluate_total Y (tAt i) with
      | error e => rw [hy] at h; cases h
      | ok y =>
        rw [hy] at h
        cases hrest : evalFrames X Y idxs with
        | error e => rw [hrest] at h; cases h
        | ok rest =>
          rw [hrest] at h
          replace h : Except.ok ((x, y) :: rest) = .ok frames := h
          cases h
          have ih := evalFrames_spec X Y idxs rest hrest
          refine ⟨by simp [ih.1], ?_⟩
          intro k hk hk2
          cases k with
          | zero =>
            show Except.ok ((x, y)) = (do
              let xv ← evaluate_total X (tAt i)
              let yv ← evaluate_total Y (tAt i)
              Except.ok (xv, yv))
            rw [hx, hy]
            rfl
          | succ k2 =>
            have hk3 : k2 < idxs.length := Nat.lt_of_succ_lt_succ hk
            have hk4 : k2 < rest.length := Nat.lt_of_succ_lt_succ hk2
            simpa using ih.2 k2 hk3 hk4

/-- C9: a successful `TimePlot.evaluate` materializes exactly
`TIME_RANGE = 100` ordered frames, frame `i` being the evaluation of both
coordinates at `tᵢ = i/(TIME_RANGE-1)`; the times grow strictly with the
frame index, with `t = 0` at the first frame and `t = 1` at the last, and
re-evaluation returns the identical frame list. -/
theorem c9_timeplot_frames (X Y : Value) (frames : List (R × R))
    (h : timePlotEvaluate X Y = .ok frames) :
    frames.length = TIME_RANGE ∧
    (∀ i (hi : i < frames.length),
      Except.ok (frames.get ⟨i, hi⟩) = (do
        let x ← evaluate_total X (tAt i)
        let y ← evaluate_total Y (tAt i)
        Except.ok (x, y))) ∧
    (∀ i j : ℕ, i < j → tAt i < tAt j) ∧
    tAt 0 = 0 ∧ tAt (TIME_RANGE - 1) = 1 ∧
    (∀ frames2, timePlotEvaluate X Y = .ok frames2 → frames2 = frames) := by
  have spec := evalFrames_spec X Y (List.range TIME_RANGE) frames h
  have hlen : frames.length = TIME_RANGE := by simpa using spec.1
  refine ⟨hlen, ?_, ?_, ?_, ?_, ?_⟩
  · intro i hi
    have hi2 : i < (List.range TIME_RANGE).length := by
      rw [List.length_range]
      exact hlen ▸ hi
    have := spec.2 i hi2 hi
    simpa [List.get_eq_getElem, List.getElem_range] using this
  · intro i j hij
    have h99 : (0:ℚ) < (TIME_RANGE:ℚ) - 1 := by norm_num [TIME_RANGE]
    have hcast : (i:ℚ) < (j:ℚ) := by exact_mod_cast hij
    unfold tAt
    rw [div_lt_div_iff₀ h99 h99]
    exact mul_lt_mul_of_pos_right hcast h99
  · simp [tAt]
  · norm_num [tAt, TIME_RANGE]
  · intro frames2 h2
    rw [h] at h2
    exact (Except.ok.inj h2).symm

set_option maxRecDepth 40000 in
/-- C9 witness: plotting the constant `0` against the constant `0`
materializes the 100 identical frames. -/
theorem c9_timeplot_frames_witness :
    (List.replicate TIME_RANGE (R.rnum (F.fin 0), R.rnum (F.fin 0))).length = TIME_RANGE :=
  (c9_timeplot_frames (.num 0) (.num 0)
    (List.replicate TIME_RANGE (R.rnum (F.fin 0), R.rnum (F.fin 0)))
    (by with_unfolding_all rfl)).1

/-- A successful `Figure.plot` sets the `video` flag exactly when the
shallow scan classifies either coordinate as time-based, and otherwise
carries the old flag through. -/
theorem figPlot_video (s s' : FigState) (X Y : Value) (h : figPlot s X Y = .ok s') :
    s'.video = (if contains_time_series X || contains_time_series Y then true else s.video) := by
  simp only [figPlot] at h
  split at h
  · cases h
  · split at h
    · cases h
    · split at h
      · cases h
      · split at h
        · cases h
        · split at h
          · cases h
          · split at h
            · cases h
            · cases h
              rfl

/-- C10: once a figure's `video` flag is true, no modelled operation
(plot, ranges, axes, grid, legend, title, global preview, global save)
ever resets it; the global reset after a successful `preview()`/`save()`
clears only the plots list, leaving the flag, the cartesian plane (axis
bounds), the title and the legend state unchanged; and `save()` renders
as a video whenever the flag is set — so a figure whose flag was set
renders as a video even after plotting only static data. -/
theorem c10_video_flag_latched :
    (∀ (op : FigOp) (s s' : FigState), s.video = true → applyOp op s = .ok s' →
      s'.video = true) ∧
    (∀ (s s' : FigState), previewG s = .ok s' →
      s'.plots = [] ∧ s'.video = s.video ∧ s'.c_plane = s.c_plane ∧
      s'.title_text = s.title_text ∧ s'.use_legend = s.use_legend) ∧
    (∀ (s s' : FigState) (b : Bool), saveG s = .ok (s', b) →
      b = s.video ∧ s'.plots = [] ∧ s'.video = s.video ∧ s'.c_plane = s.c_plane ∧
      s'.title_text = s.title_text ∧ s'.use_legend = s.use_legend) ∧
    (∀ (s s₂ : FigState) (X Y : Value) (out : FigState × Bool), s.video = true →
      figPlot s X Y = .ok s₂ → saveG s₂ = .ok out → out.2 = true) := by
  refine ⟨?_, ?_, ?_, ?_⟩
  · intro op s s' hv h
    cases op with
    | plot X Y =>
      rw [figPlot_video s s' X Y h, hv]
      split <;> rfl
    | xrange a b =>
      simp only [applyOp, figXrange, set_xrange] at h
      split at h
      · cases h
      · replace h : Except.ok { s with c_plane := _ } = .ok s' := h
        cases h
        exact hv
    | yrange a b =>
      simp only [applyOp, figYrange, set_yrange] at h
      split at h
      · cases h
      · replace h : Except.ok { s with c_plane := _ } = .ok s' := h
        cases h
        exact hv
    | xaxis =>
      cases h
      exact hv
    | yaxis =>
      cases h
      exact hv
    | grid a b =>
      simp only [applyOp, figGrid, set_grid] at h
      split at h
      · cases h
      · replace h : Except.ok { s with c_plane := _ } = .ok s' := h
        cases h
        exact hv
    | legend =>
      cases h
      exact hv
    | title txt =>
      simp only [applyOp, figTitle] at h
      split at h
      · cases h
      · cases h
        exact hv
    | preview =>
      simp only [applyOp, previewG, hv] at h
      split at h <;> cases h
    | save =>
      simp only [applyOp, saveG] at h
      split at h
      · cases h
      · cases h
        exact hv
  · intro s s' h
    simp only [previewG] at h
    split at h
    · cases h
    · split at h
      · cases h
      · cases h
        exact ⟨rfl, rfl, rfl, rfl, rfl⟩
  · intro s s' b h
    simp only [saveG] at h
    split at h
    · cases h
    · cases h
      exact ⟨rfl, rfl, rfl, rfl, rfl, rfl⟩
  · intro s s₂ X Y out hv hp hs
    have h2 : s₂.video = true := by
      rw [figPlot_video s s₂ X Y hp, hv]
      split <;> rfl
    simp only [saveG] at hs
    split at hs
    · cases hs
    · cases hs
      exact h2

end WPLT
